import Mathlib

/-!
Shallow embedding of the forecasting core of `src/ui/app.py` (FinCrypt 2.0).

The core pipeline is:
  `load_price_data` → `prepare_features` → `train_model` → `make_forecast`.

Modelling conventions:
* a calendar date is represented by its proleptic Gregorian ordinal
  (`datetime.toordinal`), an integer; adding `timedelta(days = n)` adds `n`;
* prices and all model outputs are rationals (`ℚ`), standing for the float
  values of the program — none of the verified claims depends on rounding;
* a pandas `DataFrame` produced by the loader is a list of rows, the list
  position being the dense 0-based index created by `reset_index(drop=True)`;
* `pd.read_csv` is abstracted into a `RawTable`: the list of column names
  plus the parsed `(Date, Price)` cell pairs (further columns are ignored by
  the program and hence by the model);
* `df.sort_values("Date")` is modelled by a stable sort (`List.mergeSort`)
  keyed on the date;
* the SVR estimator of scikit-learn is abstracted as a deterministic fitting
  function `fit : SVRParams → samples → (ordinal → price)`, a parameter of
  every statement: libsvm's solver is deterministic for fixed inputs, and no
  claim depends on the numeric values it produces;
* a Python `raise ValueError` is modelled by returning `Except.error` with a
  constructor named after the failure.
-/

namespace FinCrypt

/-- Calendar date, carried as its `datetime.toordinal` integer. -/
structure Date where
  ordinal : ℤ
deriving DecidableEq, Repr

/-- Model of `datetime.toordinal` applied to a date value. -/
def Date.toordinal (d : Date) : ℤ := d.ordinal

/-- Model of `date + timedelta(days = n)`. -/
def Date.addDays (d : Date) (n : ℤ) : Date := ⟨d.ordinal + n⟩

/-- Raw tabular input as produced by `pd.read_csv`: column names and, for the
two columns the program reads, the parsed cell values of each row. -/
structure RawTable where
  columns : List String
  rows : List (Date × ℚ)
deriving DecidableEq

/-- A loaded price frame: rows after sorting and dense re-indexing, the list
position being the 0-based index. -/
structure DataFrame where
  rows : List (Date × ℚ)
deriving DecidableEq

/-- The `Date` column of a frame, as ordinals. -/
def DataFrame.dates (df : DataFrame) : List ℤ := df.rows.map fun r => r.1.ordinal

/-- Errors raised by the pipeline (all are `ValueError`s in the program:
the schema message of `load_price_data`, and the fold-count check inside
scikit-learn's `TimeSeriesSplit`). -/
inductive PyError where
  | schemaError
  | insufficientData
deriving DecidableEq, Repr

/-- Row comparison used by `df.sort_values("Date")`: ascending by date. -/
def dateLE (a b : Date × ℚ) : Bool := decide (a.1.ordinal ≤ b.1.ordinal)

/-- Embedding of `load_price_data`: checks that the two expected columns are
present (`ValueError` otherwise), then sorts rows ascending by date and
re-indexes densely.  Date parsing (`pd.to_datetime`) is absorbed into the
`RawTable` abstraction.  The program's `sort_values` uses numpy's default
quicksort, which is not stable, so the relative order of rows with equal
dates is implementation-defined; the model must fix one admissible order and
uses a stable sort, but no theorem below depends on the order of rows with
equal dates. -/
def load_price_data (t : RawTable) : Except PyError DataFrame :=
  if "Date" ∈ t.columns ∧ "Price" ∈ t.columns then
    .ok ⟨t.rows.mergeSort dateLE⟩
  else
    .error .schemaError

/-- The frame built locally inside `prepare_features` after `df.copy()` and
the assignment of the `Date_ordinal` column; the caller's frame is untouched
because the assignment targets the copy. -/
def prepare_features_local (df : DataFrame) : List (Date × ℚ × ℤ) :=
  df.rows.map fun r => (r.1, r.2, r.1.toordinal)

/-- Embedding of `prepare_features`: returns the feature column
`X = df[["Date_ordinal"]]` and the target column `y = df["Price"]`, both read
from the local copy. -/
def prepare_features (df : DataFrame) : List ℤ × List ℚ :=
  ((prepare_features_local df).map fun r => r.2.2,
   (prepare_features_local df).map fun r => r.2.1)

/-- Hyperparameter configuration of the SVR estimator. -/
structure SVRParams where
  C : ℚ
  gamma : ℚ
  kernel : String
deriving DecidableEq, Repr

/-- The hard-coded `param_grid` of `train_model`, in the iteration order of
scikit-learn's `ParameterGrid` (keys sorted alphabetically, the last key
varying fastest). -/
def param_grid : List SVRParams :=
  ([1, 10, 100] : List ℚ).flatMap fun c =>
    ([1/1000, 1/100, 1/10] : List ℚ).flatMap fun g =>
      (["rbf"] : List String).map fun k => ⟨c, g, k⟩

/-- Validation-block size chosen by `TimeSeriesSplit`:
`test_size = n_samples // (n_splits + 1)`. -/
def tscvTestSize (n k : ℕ) : ℕ := n / (k + 1)

/-- Fold number `i` of `TimeSeriesSplit(n_splits = k)` on `n` samples:
training indices are all indices before the validation block, which starts at
`n - (k - i) * test_size` and has `test_size` elements. -/
def tscvFold (n k i : ℕ) : List ℕ × List ℕ :=
  (List.range (n - (k - i) * tscvTestSize n k),
   List.range' (n - (k - i) * tscvTestSize n k) (tscvTestSize n k))

/-- Embedding of `TimeSeriesSplit(n_splits = k).split` on `n` samples,
including its two `ValueError` guards (`n_folds > n_samples`, and a
non-positive training window). -/
def tscvSplit (n k : ℕ) : Except PyError (List (List ℕ × List ℕ)) :=
  if n < k + 1 then .error .insufficientData
  else if n ≤ k * tscvTestSize n k then .error .insufficientData
  else .ok ((List.range k).map (tscvFold n k))

/-- Rows of `samples` selected by an index list (`X[idx]`, `y[idx]`). -/
def selectRows (samples : List (ℤ × ℚ)) (idx : List ℕ) : List (ℤ × ℚ) :=
  idx.filterMap fun i => samples[i]?

/-- Mean squared error of the model fitted on a fold's training rows, scored
on its validation rows (the error under `neg_mean_squared_error`, negated
back to a plain MSE). -/
def foldMSE (fit : SVRParams → List (ℤ × ℚ) → ℤ → ℚ)
    (samples : List (ℤ × ℚ)) (cfg : SVRParams) (fold : List ℕ × List ℕ) : ℚ :=
  let m := fit cfg (selectRows samples fold.1)
  let te := selectRows samples fold.2
  ((te.map fun s => (m s.1 - s.2) ^ 2).sum) / te.length

/-- Cross-validated mean error of one configuration: the arithmetic mean of
its per-fold MSEs (`mean_test_score`, sign-flipped). -/
def cvMeanError (fit : SVRParams → List (ℤ × ℚ) → ℤ → ℚ)
    (samples : List (ℤ × ℚ)) (folds : List (List ℕ × List ℕ))
    (cfg : SVRParams) : ℚ :=
  ((folds.map (foldMSE fit samples cfg)).sum) / folds.length

/-- Index of the first maximum of a list of scores: `GridSearchCV` ranks
mean test scores with `rankdata(method = min)` and takes `argmin` of the
ranks, which is the first index attaining the maximal score. -/
def argmaxFirst : List ℚ → ℕ
  | [] => 0
  | [_] => 0
  | x :: y :: xs =>
    if x < (y :: xs).getD (argmaxFirst (y :: xs)) 0 then argmaxFirst (y :: xs) + 1
    else 0

/-- Embedding of `train_model`: runs `GridSearchCV(SVR(), param_grid,
cv = TimeSeriesSplit(n_splits = 5), scoring = neg_mean_squared_error)` and
returns `(best_estimator_, mse, best_params_)` where `mse = -best_score_`
is the squared cross-validated RMSE: the program reports
`rmse = sqrt(mse)`, and the square root (irrational in general) is kept
symbolic by returning its radicand. -/
def train_model (fit : SVRParams → List (ℤ × ℚ) → ℤ → ℚ)
    (X : List ℤ) (y : List ℚ) :
    Except PyError ((ℤ → ℚ) × ℚ × SVRParams) := do
  let folds ← tscvSplit X.length 5
  let samples := X.zip y
  let scores := param_grid.map fun cfg => -(cvMeanError fit samples folds cfg)
  let i := argmaxFirst scores
  let best := param_grid.getD i ⟨1, 1/1000, "rbf"⟩
  .ok (fit best samples, -(scores.getD i 0), best)

/-- The value of `df["Date"].max()`, as an ordinal.  On an empty frame
pandas yields `NaT` and the program subsequently raises inside
`datetime.toordinal`, so the model is faithful only for non-empty frames;
the default `0` is a placeholder never relied upon — every theorem about
`make_forecast` assumes a non-empty frame. -/
def last_date (df : DataFrame) : ℤ := df.dates.max?.getD 0

/-- Embedding of `make_forecast`: dates `last_date + 1 .. last_date + horizon`,
each predicted independently from its ordinal. -/
def make_forecast (model : ℤ → ℚ) (df : DataFrame) (horizon : ℕ) :
    List (Date × ℚ) :=
  let future_dates := (List.range' 1 horizon).map fun i : ℕ =>
    Date.addDays ⟨last_date df⟩ (i : ℤ)
  future_dates.map fun d => (d, model d.toordinal)

/-- Bounds of the `prediction_days` sidebar slider. -/
def prediction_days_min : ℕ := 1

/-- Upper bound of the `prediction_days` sidebar slider. -/
def prediction_days_max : ℕ := 30

/-- Everything the run hands to presentation: the historical frame, the
squared cross-validated RMSE, the selected parameters, and the forecast
table. -/
structure RunOutput where
  history : DataFrame
  mse : ℚ
  best : SVRParams
  forecast : List (Date × ℚ)
deriving DecidableEq

/-- One click of the Run Prediction button (the guarded body of the app's
main block), without the Streamlit caches: load, prepare features, train on
`(X, y)`, forecast on the loaded frame.  A result `r` of `train_model` is
`(model, mse, best_params)`, read back by projections. -/
def runPrediction (fit : SVRParams → List (ℤ × ℚ) → ℤ → ℚ)
    (t : RawTable) (horizon : ℕ) : Except PyError RunOutput :=
  load_price_data t >>= fun df_prices =>
    train_model fit (prepare_features df_prices).1
        (prepare_features df_prices).2 >>= fun r =>
      .ok ⟨df_prices, r.2.1, r.2.2, make_forecast r.1 df_prices horizon⟩

/-- A Streamlit cache (`st.cache_data` / `st.cache_resource`) for one
function: the association list of argument keys already computed, most
recent first. -/
def Cache (α β : Type) : Type := List (α × β)

/-- Cache lookup by argument key. -/
def cacheLookup [DecidableEq α] : List (α × β) → α → Option β
  | [], _ => none
  | (k, v) :: rest, a => if k = a then some v else cacheLookup rest a

/-- Semantics of a call through a Streamlit cache: return the stored value on
a key hit, otherwise compute, store and return. -/
def cachedCall [DecidableEq α] (f : α → β) (c : Cache α β) (a : α) :
    β × Cache α β :=
  match cacheLookup c a with
  | some b => (b, c)
  | none => (f a, (a, f a) :: c)

/-- A cache is coherent with its function when every stored value is the
value the function computes on its key — the only states a Streamlit cache
can reach, since entries are created by calling the function. -/
def CacheOK [DecidableEq α] (f : α → β) (c : Cache α β) : Prop :=
  ∀ a b, cacheLookup c a = some b → b = f a

/-- The per-session cache state of the app: one cache for
`load_price_data` (`st.cache_data`) and one for `train_model`
(`st.cache_resource`, keyed by the `(X, y)` arrays). -/
structure Session where
  loadCache : Cache RawTable (Except PyError DataFrame)
  trainCache : Cache (List ℤ × List ℚ) (Except PyError ((ℤ → ℚ) × ℚ × SVRParams))

/-- The fresh session state: both caches empty. -/
def Session.empty : Session := ⟨[], []⟩

/-- Coherence of a session's caches with the cached functions. -/
def SessionOK (fit : SVRParams → List (ℤ × ℚ) → ℤ → ℚ) (s : Session) : Prop :=
  CacheOK load_price_data s.loadCache ∧
  CacheOK (fun a => train_model fit a.1 a.2) s.trainCache

/-- One click of the Run Prediction button with the Streamlit caches in
effect: `load_price_data` and `train_model` go through their caches, the
updated session state is returned alongside the result. -/
def runPredictionCached (fit : SVRParams → List (ℤ × ℚ) → ℤ → ℚ)
    (s : Session) (t : RawTable) (horizon : ℕ) :
    Except PyError RunOutput × Session :=
  match (cachedCall load_price_data s.loadCache t).1 with
  | .error e =>
    (.error e, ⟨(cachedCall load_price_data s.loadCache t).2, s.trainCache⟩)
  | .ok df_prices =>
    match (cachedCall (fun a => train_model fit a.1 a.2) s.trainCache
        (prepare_features df_prices)).1 with
    | .error e =>
      (.error e,
       ⟨(cachedCall load_price_data s.loadCache t).2,
        (cachedCall (fun a => train_model fit a.1 a.2) s.trainCache
          (prepare_features df_prices)).2⟩)
    | .ok r =>
      (.ok ⟨df_prices, r.2.1, r.2.2, make_forecast r.1 df_prices horizon⟩,
       ⟨(cachedCall load_price_data s.loadCache t).2,
        (cachedCall (fun a => train_model fit a.1 a.2) s.trainCache
          (prepare_features df_prices)).2⟩)

/-! ### Helper lemmas: caches -/

theorem cacheLookup_cons [DecidableEq α] (k : α) (v : β) (c : List (α × β))
    (a : α) :
    cacheLookup ((k, v) :: c) a = if k = a then some v else cacheLookup c a :=
  rfl

theorem cachedCall_fst [DecidableEq α] (f : α → β) (c : Cache α β) (a : α)
    (hc : CacheOK f c) : (cachedCall f c a).1 = f a := by
  unfold cachedCall
  cases h : cacheLookup c a with
  | none => rfl
  | some b => exact hc a b h

theorem cachedCall_ok [DecidableEq α] (f : α → β) (c : Cache α β) (a : α)
    (hc : CacheOK f c) : CacheOK f (cachedCall f c a).2 := by
  unfold cachedCall
  cases h : cacheLookup c a with
  | none =>
    intro x y hxy
    rw [cacheLookup_cons] at hxy
    split at hxy
    · next hax => cases hxy; rw [hax]
    · exact hc x y hxy
  | some b => exact hc

/-! ### Helper lemmas: first-maximum selection -/

theorem argmaxFirst_cons₂ (x y : ℚ) (xs : List ℚ) :
    argmaxFirst (x :: y :: xs) =
      if x < (y :: xs).getD (argmaxFirst (y :: xs)) 0 then
        argmaxFirst (y :: xs) + 1
      else 0 := rfl

theorem argmaxFirst_lt_length (l : List ℚ) (h : l ≠ []) :
    argmaxFirst l < l.length := by
  induction l with
  | nil => exact absurd rfl h
  | cons x xs ih =>
    cases xs with
    | nil => simp [argmaxFirst]
    | cons y ys =>
      rw [argmaxFirst_cons₂]
      split
      · have := ih (by simp)
        simpa using Nat.succ_lt_succ this
      · simp

theorem le_getD_argmaxFirst (l : List ℚ) (a : ℚ) (ha : a ∈ l) :
    a ≤ l.getD (argmaxFirst l) 0 := by
  induction l with
  | nil => simp at ha
  | cons x xs ih =>
    cases xs with
    | nil =>
      simp at ha
      subst ha
      simp [argmaxFirst]
    | cons y ys =>
      rw [argmaxFirst_cons₂]
      rcases List.mem_cons.mp ha with rfl | hmem
      · split
        · next hlt => rw [List.getD_cons_succ]; exact le_of_lt hlt
        · simp
      · split
        · next hlt => rw [List.getD_cons_succ]; exact ih hmem
        · next hge =>
          rw [List.getD_cons_zero]
          exact le_trans (ih hmem) (not_lt.mp hge)

theorem getD_lt_of_lt_argmaxFirst (l : List ℚ) (j : ℕ)
    (hj : j < argmaxFirst l) :
    l.getD j 0 < l.getD (argmaxFirst l) 0 := by
  induction l generalizing j with
  | nil => simp [argmaxFirst] at hj
  | cons x xs ih =>
    cases xs with
    | nil => simp [argmaxFirst] at hj
    | cons y ys =>
      by_cases hlt : x < (y :: ys).getD (argmaxFirst (y :: ys)) 0
      · rw [argmaxFirst_cons₂, if_pos hlt] at hj ⊢
        cases j with
        | zero => simpa using hlt
        | succ j' =>
          rw [List.getD_cons_succ, List.getD_cons_succ]
          exact ih j' (Nat.lt_of_succ_lt_succ hj)
      · rw [argmaxFirst_cons₂, if_neg hlt] at hj
        omega

/-! ### Helper lemmas: sorting and maxima -/

theorem dateLE_trans (a b c : Date × ℚ) (hab : dateLE a b = true)
    (hbc : dateLE b c = true) : dateLE a c = true := by
  simp only [dateLE, decide_eq_true_eq] at *
  omega

theorem dateLE_total (a b : Date × ℚ) : (dateLE a b || dateLE b a) = true := by
  simp only [dateLE, Bool.or_eq_true, decide_eq_true_eq]
  omega

theorem load_price_data_rows (t : RawTable) (df : DataFrame)
    (h : load_price_data t = .ok df) : df.rows = t.rows.mergeSort dateLE := by
  unfold load_price_data at h
  split at h
  · injection h with h
    rw [← h]
  · cases h

theorem load_price_data_sorted (t : RawTable) (df : DataFrame)
    (h : load_price_data t = .ok df) :
    df.rows.Pairwise fun a b => a.1.ordinal ≤ b.1.ordinal := by
  rw [load_price_data_rows t df h]
  have := List.sorted_mergeSort dateLE_trans dateLE_total t.rows
  exact this.imp fun hab => by
    simpa only [dateLE, decide_eq_true_eq] using hab

theorem sorted_getLast_ge (l : List ℤ) (hs : l.Pairwise (· ≤ ·)) :
    ∀ a ∈ l, a ≤ l.getLast?.getD 0 := by
  induction l with
  | nil => simp
  | cons x xs ih =>
    intro a ha
    cases xs with
    | nil =>
      simp at ha
      simp [ha]
    | cons y ys =>
      rw [List.getLast?_cons_cons]
      rcases List.mem_cons.mp ha with rfl | hmem
      · have hxy : a ≤ y := (List.pairwise_cons.mp hs).1 y (List.mem_cons_self _ _)
        exact le_trans hxy
          (ih (List.pairwise_cons.mp hs).2 y (List.mem_cons_self _ _))
      · exact ih (List.pairwise_cons.mp hs).2 a hmem

theorem foldl_max_sorted (xs : List ℤ) :
    ∀ x : ℤ, (x :: xs).Pairwise (· ≤ ·) →
      xs.foldl max x = ((x :: xs).getLast?).getD 0 := by
  induction xs with
  | nil => intro x _; simp
  | cons y ys ih =>
    intro x hs
    have hxy : x ≤ y := (List.pairwise_cons.mp hs).1 y (List.mem_cons_self _ _)
    rw [List.foldl_cons, max_eq_right hxy, List.getLast?_cons_cons]
    exact ih y (List.pairwise_cons.mp hs).2

theorem max?_getD_sorted (l : List ℤ) (hs : l.Pairwise (· ≤ ·)) :
    l.max?.getD 0 = l.getLast?.getD 0 := by
  cases l with
  | nil => simp
  | cons x xs =>
    have : (x :: xs).max? = some (xs.foldl max x) := rfl
    rw [this, Option.getD_some, foldl_max_sorted xs x hs]

/-! ### Helper lemmas: TimeSeriesSplit -/

theorem tscvSplit_ok (n : ℕ) (hn : 10 ≤ n) :
    tscvSplit n 5 = .ok ((List.range 5).map (tscvFold n 5)) := by
  unfold tscvSplit tscvTestSize
  rw [if_neg (by omega), if_neg (by omega)]

theorem tscvFold_spec (n : ℕ) (hn : 10 ≤ n) (i : ℕ) (hi : i < 5) :
    (tscvFold n 5 i).1 ≠ [] ∧ (tscvFold n 5 i).2 ≠ [] ∧
    (∀ a ∈ (tscvFold n 5 i).1, ∀ b ∈ (tscvFold n 5 i).2, a < b) ∧
    (∀ j : ℕ, j ∈ (tscvFold n 5 i).1 ↔ ∀ b ∈ (tscvFold n 5 i).2, j < b) := by
  unfold tscvFold tscvTestSize
  refine ⟨?_, ?_, ?_, ?_⟩
  · simp only [ne_eq, List.range_eq_nil]
    interval_cases i <;> omega
  · simp only [ne_eq, List.range'_eq_nil]
    omega
  · intro a ha b hb
    rw [List.mem_range] at ha
    rw [List.mem_range'_1] at hb
    omega
  · intro j
    constructor
    · intro hj b hb
      rw [List.mem_range] at hj
      rw [List.mem_range'_1] at hb
      omega
    · intro hall
      rw [List.mem_range]
      exact hall _ (List.mem_range'_1.mpr (by omega))

theorem tscvFold_mono (n : ℕ) (hn : 10 ≤ n) (i j : ℕ) (hij : i < j)
    (hj : j < 5) :
    ∀ a ∈ (tscvFold n 5 i).2, ∀ b ∈ (tscvFold n 5 j).2, a < b := by
  intro a ha b hb
  unfold tscvFold tscvTestSize at ha hb
  rw [List.mem_range'_1] at ha hb
  have hi : i < 5 := lt_trans hij hj
  interval_cases i <;> interval_cases j <;> omega

/-! ### Claim C2 -/

/-- C2: for every sample count of at least `2 * K` (with `K = 5` as fixed in
`train_model`), the temporal splitter yields exactly `K` folds; in every fold
both index sets are non-empty, every training index strictly precedes every
validation index, the training set is exactly the set of indices preceding
the whole validation block (expanding window), and validation blocks are
strictly ordered (hence chronologically non-decreasing) across fold index. -/
theorem tscv_walk_forward (n : ℕ) (hn : 2 * 5 ≤ n) :
    ∃ folds, tscvSplit n 5 = .ok folds ∧ folds.length = 5 ∧
      (∀ f ∈ folds, f.1 ≠ [] ∧ f.2 ≠ [] ∧
        (∀ a ∈ f.1, ∀ b ∈ f.2, a < b) ∧
        (∀ j : ℕ, j ∈ f.1 ↔ ∀ b ∈ f.2, j < b)) ∧
      ∀ i j : ℕ, i < j → j < 5 →
        ∀ a ∈ (folds.getD i ([], [])).2, ∀ b ∈ (folds.getD j ([], [])).2,
          a < b := by
  have hn' : 10 ≤ n := by omega
  refine ⟨(List.range 5).map (tscvFold n 5), tscvSplit_ok n hn', by simp,
    ?_, ?_⟩
  · intro f hf
    obtain ⟨i, hi, rfl⟩ := List.mem_map.mp hf
    exact tscvFold_spec n hn' i (List.mem_range.mp hi)
  · intro i j hij hj a ha b hb
    have hgd : ∀ m : ℕ, m < 5 →
        ((List.range 5).map (tscvFold n 5)).getD m ([], []) =
          tscvFold n 5 m := by
      intro m hm
      rw [List.getD_eq_getElem _ _ (by simpa using hm), List.getElem_map,
        List.getElem_range]
    rw [hgd i (lt_trans hij hj)] at ha
    rw [hgd j hj] at hb
    exact tscvFold_mono n hn' i j hij hj a ha b hb

/-- Witness for C2 at the minimal admissible sample count. -/
theorem tscv_walk_forward_witness :
    ∃ folds, tscvSplit 10 5 = .ok folds ∧ folds.length = 5 ∧
      (∀ f ∈ folds, f.1 ≠ [] ∧ f.2 ≠ [] ∧
        (∀ a ∈ f.1, ∀ b ∈ f.2, a < b) ∧
        (∀ j : ℕ, j ∈ f.1 ↔ ∀ b ∈ f.2, j < b)) ∧
      ∀ i j : ℕ, i < j → j < 5 →
        ∀ a ∈ (folds.getD i ([], [])).2, ∀ b ∈ (folds.getD j ([], [])).2,
          a < b :=
  tscv_walk_forward 10 (by decide)

/-! ### Claim C8 -/

/-- C8: for every sample count too small to form five non-empty folds (fewer
than six samples, three rows in particular), the training stage fails with
the insufficient-data error before producing folds or a fitted model. -/
theorem train_insufficient_data (fit : SVRParams → List (ℤ × ℚ) → ℤ → ℚ)
    (X : List ℤ) (y : List ℚ) (h : X.length < 6) :
    train_model fit X y = .error .insufficientData := by
  unfold train_model tscvSplit
  rw [if_pos (by omega)]
  rfl

/-- Witness for C8 at an input with exactly three rows. -/
theorem train_insufficient_data_witness :
    train_model (fun _ _ _ => 0) [1, 2, 3] [4, 5, 6] =
      .error .insufficientData :=
  train_insufficient_data (fun _ _ _ => 0) [1, 2, 3] [4, 5, 6] (by decide)

/-! ### Helper lemmas: grid search -/

theorem cvMeanError_nonneg (fit : SVRParams → List (ℤ × ℚ) → ℤ → ℚ)
    (samples : List (ℤ × ℚ)) (folds : List (List ℕ × List ℕ))
    (cfg : SVRParams) : 0 ≤ cvMeanError fit samples folds cfg := by
  unfold cvMeanError
  apply div_nonneg _ (Nat.cast_nonneg _)
  apply List.sum_nonneg
  intro x hx
  obtain ⟨f, _, rfl⟩ := List.mem_map.mp hx
  unfold foldMSE
  apply div_nonneg _ (Nat.cast_nonneg _)
  apply List.sum_nonneg
  intro z hz
  obtain ⟨s, _, rfl⟩ := List.mem_map.mp hz
  exact sq_nonneg _

theorem train_model_eq (fit : SVRParams → List (ℤ × ℚ) → ℤ → ℚ)
    (X : List ℤ) (y : List ℚ) (folds : List (List ℕ × List ℕ))
    (hts : tscvSplit X.length 5 = .ok folds) :
    train_model fit X y = .ok
      (fit (param_grid.getD (argmaxFirst (param_grid.map fun cfg =>
          -(cvMeanError fit (X.zip y) folds cfg))) ⟨1, 1/1000, "rbf"⟩)
        (X.zip y),
       -((param_grid.map fun cfg =>
          -(cvMeanError fit (X.zip y) folds cfg)).getD
            (argmaxFirst (param_grid.map fun cfg =>
              -(cvMeanError fit (X.zip y) folds cfg))) 0),
       param_grid.getD (argmaxFirst (param_grid.map fun cfg =>
          -(cvMeanError fit (X.zip y) folds cfg))) ⟨1, 1/1000, "rbf"⟩) := by
  unfold train_model
  rw [hts]
  rfl

theorem argmax_select (e : SVRParams → ℚ) (l : List SVRParams)
    (d : SVRParams) (hne : l ≠ []) :
    l.getD (argmaxFirst (l.map fun c => -(e c))) d ∈ l ∧
    (∀ cfg ∈ l, e (l.getD (argmaxFirst (l.map fun c => -(e c))) d) ≤ e cfg) ∧
    ((l.map fun c => -(e c)).getD (argmaxFirst (l.map fun c => -(e c))) 0 =
      -(e (l.getD (argmaxFirst (l.map fun c => -(e c))) d))) ∧
    ∀ j < argmaxFirst (l.map fun c => -(e c)),
      e (l.getD (argmaxFirst (l.map fun c => -(e c))) d) < e (l.getD j d) := by
  have hsl : (l.map fun c => -(e c)).length = l.length := List.length_map l _
  have hsne : (l.map fun c => -(e c)) ≠ [] := by
    intro hnil
    exact hne (List.map_eq_nil_iff.mp hnil)
  have hi : argmaxFirst (l.map fun c => -(e c)) < l.length := by
    rw [← hsl]
    exact argmaxFirst_lt_length _ hsne
  have hgetD : ∀ j, j < l.length →
      (l.map fun c => -(e c)).getD j 0 = -(e (l.getD j d)) := by
    intro j hj
    rw [List.getD_eq_getElem _ 0 (by rw [hsl]; exact hj),
      List.getD_eq_getElem l d hj, List.getElem_map]
  refine ⟨?_, ?_, hgetD _ hi, ?_⟩
  · rw [List.getD_eq_getElem l d hi]
    exact List.getElem_mem hi
  · intro cfg hc
    have hmem : -(e cfg) ∈ (l.map fun c => -(e c)) :=
      List.mem_map.mpr ⟨cfg, hc, rfl⟩
    have h2 := le_getD_argmaxFirst _ _ hmem
    rw [hgetD _ hi] at h2
    exact neg_le_neg_iff.mp h2
  · intro j hj
    have h3 := getD_lt_of_lt_argmaxFirst (l.map fun c => -(e c)) j hj
    have hj' : j < l.length := lt_trans hj hi
    rw [hgetD _ hi, hgetD j hj'] at h3
    exact neg_lt_neg_iff.mp h3

/-! ### Claim C3 -/

/-- C3: on any series of at least ten points, the grid search inside
`train_model` succeeds and returns a squared cross-validated RMSE that is
non-negative (so the reported RMSE, its square root, is a well-defined
non-negative real) and a best configuration that is a member of the
hard-coded grid, attains the minimum mean cross-validated error over the
folds, and is the first such configuration in grid iteration order — ties
are broken first-seen, so the selection is deterministic for the given grid
ordering. -/
theorem train_model_grid_search (fit : SVRParams → List (ℤ × ℚ) → ℤ → ℚ)
    (X : List ℤ) (y : List ℚ) (hn : 10 ≤ X.length) :
    ∃ folds model mse best, tscvSplit X.length 5 = .ok folds ∧
      train_model fit X y = .ok (model, mse, best) ∧
      best ∈ param_grid ∧ 0 ≤ mse ∧
      mse = cvMeanError fit (X.zip y) folds best ∧
      (∀ cfg ∈ param_grid, cvMeanError fit (X.zip y) folds best ≤
        cvMeanError fit (X.zip y) folds cfg) ∧
      ∃ i, i < param_grid.length ∧
        param_grid.getD i ⟨1, 1/1000, "rbf"⟩ = best ∧
        ∀ j < i, cvMeanError fit (X.zip y) folds best <
          cvMeanError fit (X.zip y) folds (param_grid.getD j ⟨1, 1/1000, "rbf"⟩) := by
  have hfolds := tscvSplit_ok X.length hn
  have hgne : param_grid ≠ [] := by
    intro h
    exact absurd (congrArg List.length h) (by decide)
  obtain ⟨hmem, hmin, hval, hfirst⟩ :=
    argmax_select (cvMeanError fit (X.zip y) ((List.range 5).map
      (tscvFold X.length 5))) param_grid ⟨1, 1/1000, "rbf"⟩ hgne
  refine ⟨(List.range 5).map (tscvFold X.length 5), _, _, _, hfolds,
    train_model_eq fit X y _ hfolds, hmem, ?_, ?_, hmin, ?_⟩
  · rw [hval, neg_neg]
    exact cvMeanError_nonneg fit (X.zip y) _ _
  · rw [hval, neg_neg]
  · refine ⟨argmaxFirst (param_grid.map fun cfg =>
      -(cvMeanError fit (X.zip y) ((List.range 5).map
        (tscvFold X.length 5)) cfg)), ?_, rfl, hfirst⟩
    have hsl : (param_grid.map fun cfg =>
        -(cvMeanError fit (X.zip y) ((List.range 5).map
          (tscvFold X.length 5)) cfg)).length = param_grid.length :=
      List.length_map _ _
    rw [← hsl]
    apply argmaxFirst_lt_length
    intro hnil
    exact hgne (List.map_eq_nil_iff.mp hnil)

/-- Witness for C3: a constant-zero fitting function on a ten-point series;
every configuration then has zero error and the first grid entry is chosen. -/
theorem train_model_grid_search_witness :
    ∃ folds model mse best, tscvSplit (10 : ℕ) 5 = .ok folds ∧
      train_model (fun _ _ _ => 0)
        [1, 2, 3, 4, 5, 6, 7, 8, 9, 10]
        [1, 1, 1, 1, 1, 1, 1, 1, 1, 1] = .ok (model, mse, best) ∧
      best ∈ param_grid ∧ 0 ≤ mse :=
  (fun ⟨folds, model, mse, best, h1, h2, h3, h4, _⟩ =>
    ⟨folds, model, mse, best, h1, h2, h3, h4⟩)
  (train_model_grid_search (fun _ _ _ => 0)
    [1, 2, 3, 4, 5, 6, 7, 8, 9, 10]
    [1, 1, 1, 1, 1, 1, 1, 1, 1, 1] (by decide))

/-! ### Claim C6 -/

/-- C6: when either required column is absent, `load_price_data` fails with
the schema error, and the whole run fails with that same error — for every
fitting function and horizon, so no feature preparation or model fitting can
have influenced (or preceded) the failure. -/
theorem load_schema_guard (t : RawTable)
    (h : "Date" ∉ t.columns ∨ "Price" ∉ t.columns) :
    load_price_data t = .error .schemaError ∧
    ∀ (fit : SVRParams → List (ℤ × ℚ) → ℤ → ℚ) (H : ℕ),
      runPrediction fit t H = .error .schemaError := by
  have hl : load_price_data t = .error .schemaError := by
    unfold load_price_data
    rw [if_neg (by tauto)]
  refine ⟨hl, fun fit H => ?_⟩
  unfold runPrediction
  rw [hl]
  rfl

/-- Witness for C6 at a table having only a `Price` column. -/
theorem load_schema_guard_witness :
    load_price_data ⟨["Price"], []⟩ = .error .schemaError ∧
    ∀ (fit : SVRParams → List (ℤ × ℚ) → ℤ → ℚ) (H : ℕ),
      runPrediction fit ⟨["Price"], []⟩ H = .error .schemaError :=
  load_schema_guard ⟨["Price"], []⟩ (by simp)

/-! ### Claim C7 (corrected) -/

/-- Counterexample to C7 as stated: on a zero-row input with both required
columns present, `load_price_data` does not fail — it returns the empty
series. -/
theorem load_empty_no_error_cex :
    load_price_data ⟨["Date", "Price"], []⟩ = .ok ⟨[]⟩ := by
  unfold load_price_data
  rw [if_pos (by decide), List.mergeSort_nil]

/-- C7 amended: for raw input with both required columns present and zero
rows, `load_price_data` performs no emptiness check and returns the empty
series; no error is raised at load time. -/
theorem load_empty_returns_empty (t : RawTable) (hd : "Date" ∈ t.columns)
    (hp : "Price" ∈ t.columns) (hr : t.rows = []) :
    load_price_data t = .ok ⟨[]⟩ := by
  unfold load_price_data
  rw [if_pos ⟨hd, hp⟩, hr, List.mergeSort_nil]

/-- Witness for the amended C7 at a table with an extra ignored column. -/
theorem load_empty_returns_empty_witness :
    load_price_data ⟨["Date", "Price", "Volume"], []⟩ = .ok ⟨[]⟩ :=
  load_empty_returns_empty ⟨["Date", "Price", "Volume"], []⟩
    (by decide) (by decide) rfl

/-! ### Claim C9 -/

/-- C9: on every non-empty frame (the only frames on which the program's
`make_forecast` runs to completion — on an empty frame it raises inside
`datetime.toordinal`, `df["Date"].max()` being `NaT`), `make_forecast`
itself enforces no upper bound on the horizon: for every positive horizon,
and in particular for every horizon beyond the sidebar slider's cap
`prediction_days_max = 30`, it returns exactly that many rows; the interval
bound lives only in the slider configuration. -/
theorem make_forecast_unbounded_horizon :
    (∀ (model : ℤ → ℚ) (df : DataFrame) (H : ℕ), df.rows ≠ [] → 0 < H →
      (make_forecast model df H).length = H) ∧
    (∀ (model : ℤ → ℚ) (df : DataFrame) (H : ℕ), df.rows ≠ [] →
      prediction_days_max < H → (make_forecast model df H).length = H) := by
  constructor <;> intro model df H _ _ <;>
    simp only [make_forecast, List.length_map, List.length_range']

/-! ### Claim C1 -/

/-- C1: for every loaded series with at least one row and every requested
horizon in the slider's interval, `make_forecast` returns exactly `H` rows;
the value `df["Date"].max()` it extends is the last observed date of the
sorted series; row `i` (0-based) carries the date `last + (i + 1)`; the
forecast dates are strictly increasing one day apart; and every forecast
date lies strictly after every observed date, so there is no gap or overlap
with the observed series. -/
theorem make_forecast_contract (t : RawTable) (df : DataFrame)
    (model : ℤ → ℚ) (H : ℕ) (hload : load_price_data t = .ok df)
    (_hne : df.rows ≠ []) (_h1 : 1 ≤ H) (_h30 : H ≤ 30) :
    (make_forecast model df H).length = H ∧
    last_date df = df.dates.getLast?.getD 0 ∧
    (∀ i (hi : i < (make_forecast model df H).length),
      ((make_forecast model df H).get ⟨i, hi⟩).1.ordinal =
        last_date df + i + 1) ∧
    (((make_forecast model df H).map fun r => r.1.ordinal).Pairwise
      (· < ·)) ∧
    (∀ r ∈ df.rows, ∀ q ∈ make_forecast model df H,
      r.1.ordinal < q.1.ordinal) := by
  have hsorted : df.dates.Pairwise (· ≤ ·) := by
    unfold DataFrame.dates
    exact List.pairwise_map.mpr (load_price_data_sorted t df hload)
  have hlast : last_date df = df.dates.getLast?.getD 0 :=
    max?_getD_sorted df.dates hsorted
  have hmax : ∀ a ∈ df.dates, a ≤ last_date df := by
    intro a ha
    rw [hlast]
    exact sorted_getLast_ge df.dates hsorted a ha
  refine ⟨?_, hlast, ?_, ?_, ?_⟩
  · simp only [make_forecast, List.length_map, List.length_range']
  · intro i hi
    simp only [make_forecast, List.length_map, List.length_range'] at hi
    simp only [make_forecast, List.get_eq_getElem, List.getElem_map,
      List.getElem_range' i (by simpa using hi), Date.addDays]
    push_cast
    ring
  · simp only [make_forecast, List.map_map]
    apply List.pairwise_map.mpr
    apply (List.pairwise_lt_range' 1 H).imp
    intro a b hab
    simp only [Function.comp, Date.addDays]
    omega
  · intro r hr q hq
    simp only [make_forecast, List.mem_map] at hq
    obtain ⟨d, hd, hdq⟩ := hq
    obtain ⟨i, hi, hid⟩ := hd
    have h1i : 1 ≤ i := (List.mem_range'_1.mp hi).1
    have hr' : r.1.ordinal ≤ last_date df :=
      hmax r.1.ordinal (List.mem_map.mpr ⟨r, hr, rfl⟩)
    have : q.1 = d := by rw [← hdq]
    rw [this, ← hid]
    simp only [Date.addDays]
    omega

/-- Witness for C1 at a two-row table and horizon 7. -/
theorem make_forecast_contract_witness :
    (make_forecast (fun _ => 0) ⟨[(⟨10⟩, 3), (⟨12⟩, 4)]⟩ 7).length = 7 :=
  (make_forecast_contract ⟨["Date", "Price"], [(⟨10⟩, 3), (⟨12⟩, 4)]⟩
    ⟨[(⟨10⟩, 3), (⟨12⟩, 4)]⟩ (fun _ => 0) 7
    (by unfold load_price_data
        rw [if_pos (by decide), List.mergeSort_of_sorted (by decide)])
    (by decide) (by decide) (by decide)).1

/-- Witness for C9 at a one-row frame and a horizon far beyond the slider
cap. -/
theorem make_forecast_unbounded_horizon_witness :
    (make_forecast (fun _ => 0) ⟨[(⟨7⟩, 2)]⟩ 365).length = 365 :=
  make_forecast_unbounded_horizon.2 (fun _ => 0) ⟨[(⟨7⟩, 2)]⟩ 365
    (by decide) (by decide)

/-! ### Helper lemmas: the cached pipeline -/

theorem except_bind_ok (a : α) (f : α → Except γ β) :
    ((Except.ok a : Except γ α) >>= f) = f a := rfl

theorem except_bind_error (e : γ) (f : α → Except γ β) :
    ((Except.error e : Except γ α) >>= f) = .error e := rfl

theorem runPredictionCached_spec (fit : SVRParams → List (ℤ × ℚ) → ℤ → ℚ)
    (s : Session) (t : RawTable) (H : ℕ) (hs : SessionOK fit s) :
    (runPredictionCached fit s t H).1 = runPrediction fit t H ∧
    SessionOK fit (runPredictionCached fit s t H).2 := by
  obtain ⟨hl, ht⟩ := hs
  unfold runPredictionCached runPrediction
  rw [cachedCall_fst load_price_data s.loadCache t hl]
  cases hdf : load_price_data t with
  | error e =>
    exact ⟨rfl, cachedCall_ok _ _ _ hl, ht⟩
  | ok df =>
    dsimp only
    simp only [except_bind_ok]
    rw [cachedCall_fst (fun a => train_model fit a.1 a.2) s.trainCache
        (prepare_features df) ht]
    cases htr : train_model fit (prepare_features df).1
        (prepare_features df).2 with
    | error e =>
      exact ⟨by rw [except_bind_error], cachedCall_ok _ _ _ hl,
        cachedCall_ok _ _ _ ht⟩
    | ok r =>
      exact ⟨by rw [except_bind_ok], cachedCall_ok _ _ _ hl,
        cachedCall_ok _ _ _ ht⟩

/-! ### Claim C4 -/

/-- C4: with the Streamlit caches modelled explicitly, a cached run from any
coherent session state returns exactly what the cache-free pipeline computes
on the raw input — so no state cached across runs can change a result — the
session stays coherent, and running the pipeline twice in succession on the
identical raw table and the identical hard-coded grid yields identical
outputs: the same best configuration, forecast timestamps, and (the
abstracted fit being a function, hence deterministic) predicted values. -/
theorem pipeline_run_idempotent (fit : SVRParams → List (ℤ × ℚ) → ℤ → ℚ)
    (t : RawTable) (H : ℕ) (s : Session) (hs : SessionOK fit s) :
    (runPredictionCached fit s t H).1 = runPrediction fit t H ∧
    SessionOK fit (runPredictionCached fit s t H).2 ∧
    (runPredictionCached fit (runPredictionCached fit s t H).2 t H).1 =
      (runPredictionCached fit s t H).1 := by
  have h1 := runPredictionCached_spec fit s t H hs
  have h2 := runPredictionCached_spec fit (runPredictionCached fit s t H).2
    t H h1.2
  exact ⟨h1.1, h1.2, by rw [h2.1, h1.1]⟩

/-- Witness for C4 from a fresh session on a concrete table. -/
theorem pipeline_run_idempotent_witness :
    (runPredictionCached (fun _ _ _ => 0) Session.empty
      ⟨["Date", "Price"], [(⟨3⟩, 1)]⟩ 7).1 =
      runPrediction (fun _ _ _ => 0) ⟨["Date", "Price"], [(⟨3⟩, 1)]⟩ 7 :=
  (pipeline_run_idempotent (fun _ _ _ => 0) ⟨["Date", "Price"], [(⟨3⟩, 1)]⟩
    7 Session.empty
    ⟨fun _ _ h => Option.noConfusion h, fun _ _ h => Option.noConfusion h⟩).1

/-! ### Claim C10 -/

/-- C10: the loaded frame is never mutated downstream — the local frame of
`prepare_features` restricted to the original two columns is exactly the
input frame (the added ordinal column lives on a private copy),
`make_forecast` reads only the `Date` column (two frames agreeing on dates
yield identical forecasts, whatever their prices), and the historical frame
a successful run hands to presentation is exactly the one `load_price_data`
produced. -/
theorem frame_effects_read_only :
    (∀ df : DataFrame,
      ((prepare_features_local df).map fun r => (r.1, r.2.1)) = df.rows) ∧
    (∀ (model : ℤ → ℚ) (df df' : DataFrame) (H : ℕ),
      (df.rows.map fun r => r.1) = (df'.rows.map fun r => r.1) →
      make_forecast model df H = make_forecast model df' H) ∧
    (∀ (fit : SVRParams → List (ℤ × ℚ) → ℤ → ℚ) (t : RawTable) (H : ℕ)
      (out : RunOutput), runPrediction fit t H = .ok out →
      load_price_data t = .ok out.history) := by
  refine ⟨?_, ?_, ?_⟩
  · intro df
    unfold prepare_features_local
    rw [List.map_map]
    have hcomp : ((fun r : Date × ℚ × ℤ => (r.1, r.2.1)) ∘
        fun r : Date × ℚ => (r.1, r.2, r.1.toordinal)) = id := by
      funext r
      rfl
    rw [hcomp, List.map_id]
  · intro model df df' H h
    have h1 : ∀ dfx : DataFrame, dfx.rows.map (fun r => r.1.ordinal) =
        (dfx.rows.map fun r => r.1).map fun d => d.ordinal := by
      intro dfx
      rw [List.map_map]
      rfl
    have hd : df.dates = df'.dates := by
      unfold DataFrame.dates
      rw [h1 df, h1 df', h]
    unfold make_forecast last_date
    rw [hd]
  · intro fit t H out h
    unfold runPrediction at h
    cases hld : load_price_data t with
    | error e =>
      rw [hld, except_bind_error] at h
      cases h
    | ok df =>
      rw [hld, except_bind_ok] at h
      cases htr : train_model fit (prepare_features df).1
          (prepare_features df).2 with
      | error e =>
        rw [htr, except_bind_error] at h
        cases h
      | ok r =>
        rw [htr, except_bind_ok] at h
        injection h with h
        rw [← h]

/-- Witness for C10: two one-row frames agreeing on dates but not on prices
produce the same forecast. -/
theorem frame_effects_read_only_witness :
    make_forecast (fun _ => 0) ⟨[(⟨5⟩, 1)]⟩ 3 =
      make_forecast (fun _ => 0) ⟨[(⟨5⟩, 2)]⟩ 3 :=
  frame_effects_read_only.2.1 (fun _ => 0) ⟨[(⟨5⟩, 1)]⟩ ⟨[(⟨5⟩, 2)]⟩ 3
    (by decide)

end FinCrypt
